import Mathlib

/-!
# Verification of the swear-jar ledger core

Shallow embedding of the jar-balance ledger of the swear-jar repository:
the Express route handlers in `src/server/routes/transactions.js`, the
Mongoose `SwearJar` model methods (`updateBalance`, `hasPermission`,
`addMember`) in `src/server/models/SwearJar.js`, the Supabase
`Transaction` model methods (`updateStatus`, `isReversible`,
`createReverseTransaction`) in `src/server/models/Transaction.js`, and
the membership-default logic of the Supabase `SwearJar.addMember` and
`User.addToSwearJar`.

Monetary amounts are rationals (the JS code manipulates decimal numbers);
timestamps (`createdAt`, `processedAt`, `updatedAt`) are elided, since no
verified property mentions them.  Each HTTP handler becomes a function
from an explicit single-jar ledger state to a step result; the early
`return res.status(...)` branches become error results.  Partial effects
that a handler leaves behind when a later database call of the same
handler throws (the approve handler saves the status change before
calling `updateBalance`) are preserved: an erroring step returns the
state the database holds after the error.
-/

namespace SwearJarLedger

/-- Transaction types (`transactions.type` enum). -/
inductive TxType where
  | deposit
  | withdrawal
  | transfer
  | penalty
  | refund
  deriving DecidableEq, Repr

/-- Transaction statuses (`transactions.status` enum). -/
inductive TxStatus where
  | pending
  | completed
  | failed
  | cancelled
  deriving DecidableEq, Repr

/-- Per-member permission flags of a jar membership. -/
structure Permissions where
  canDeposit : Bool
  canWithdraw : Bool
  canInvite : Bool
  canViewTransactions : Bool
  deriving DecidableEq, Repr

/-- Membership roles (`swear_jar_members.role` enum). -/
inductive Role where
  | owner
  | admin
  | member
  deriving DecidableEq, Repr

/-- One entry of the jar's `members` array. -/
structure Member where
  userId : Nat
  role : Role
  permissions : Permissions
  deriving DecidableEq, Repr

/-- One entry of `settings.swearWords`: a word and its penalty. -/
structure SwearWordRule where
  word : String
  penalty : Rat
  deriving DecidableEq, Repr

/-- The jar settings the transaction routes consult. -/
structure Settings where
  requireApprovalForWithdrawals : Bool
  minimumDeposit : Rat
  maximumDeposit : Rat
  swearWords : List SwearWordRule
  deriving DecidableEq, Repr

/-- The derived `statistics` object maintained by `updateBalance`. -/
structure Statistics where
  totalDeposits : Rat
  totalWithdrawals : Rat
  transactionCount : Nat
  averageDeposit : Rat
  deriving DecidableEq, Repr

/-- A swear jar document. -/
structure Jar where
  balance : Rat
  settings : Settings
  statistics : Statistics
  members : List Member
  deriving DecidableEq, Repr

/-- The transaction metadata fields the ledger routes read or write. -/
structure TxMeta where
  swearWord : Option String := none
  approvedBy : Option Nat := none
  originalTransactionId : Option Nat := none
  reverseReason : Option String := none
  deriving DecidableEq, Repr

/-- A transaction document. -/
structure Transaction where
  id : Nat
  userId : Nat
  txType : TxType
  amount : Rat
  status : TxStatus
  balanceAfter : Rat
  metadata : TxMeta := {}
  deriving DecidableEq, Repr

/-- The capability keys accepted by `swearJarSchema.methods.hasPermission`. -/
inductive PermKey where
  | canDeposit
  | canWithdraw
  | canInvite
  | canViewTransactions
  deriving DecidableEq, Repr

/-- Read the flag named by a capability key. -/
def Permissions.get (p : Permissions) : PermKey → Bool
  | .canDeposit => p.canDeposit
  | .canWithdraw => p.canWithdraw
  | .canInvite => p.canInvite
  | .canViewTransactions => p.canViewTransactions

/-- `swearJarSchema.methods.hasPermission` (SwearJar.js lines 185-193):
look the caller up in `members`; a missing member fails; the `owner` role
short-circuits to true; otherwise the permission flag decides. -/
def Jar.hasPermission (jar : Jar) (uid : Nat) (perm : PermKey) : Bool :=
  match jar.members.find? (fun m => m.userId == uid) with
  | none => false
  | some m => if m.role == Role.owner then true else m.permissions.get perm

/-- The role hierarchy of `userSchema.methods.hasPermission`:
`member(0) < admin(1) < owner(2)`. -/
def roleRank : Role → Nat
  | .member => 0
  | .admin => 1
  | .owner => 2

/-- `userSchema.methods.hasPermission` (the role-hierarchy check the
deposit and penalty handlers use).  The User document's `swearJars` role
entry is kept in sync with the jar's member list by the create/invite
routes, so the role is read off the jar's member list here. -/
def userHasRole (jar : Jar) (uid : Nat) (required : Role) : Bool :=
  match jar.members.find? (fun m => m.userId == uid) with
  | none => false
  | some m => roleRank required ≤ roleRank m.role

/-- The error outcomes the embedded handlers report (the `res.status(4xx)`
branches and thrown model errors). -/
inductive Err where
  | validationFailed
  | accessDenied
  | notFound
  | insufficientFunds
  | limitExceeded
  | invalidState
  | alreadyMember
  deriving DecidableEq, Repr

/-- `swearJarSchema.methods.updateBalance` (SwearJar.js lines 196-212):
deposits always apply; withdrawals throw `Insufficient funds` when the
balance is short; both bump the statistics. -/
def Jar.updateBalance (jar : Jar) (amount : Rat) (isDeposit : Bool) : Except Err Jar :=
  if isDeposit then
    let st0 := jar.statistics
    let st1 := { st0 with totalDeposits := st0.totalDeposits + amount,
                          transactionCount := st0.transactionCount + 1 }
    let st2 := { st1 with averageDeposit := st1.totalDeposits / (st1.transactionCount : Rat) }
    Except.ok { jar with balance := jar.balance + amount, statistics := st2 }
  else
    if jar.balance < amount then Except.error Err.insufficientFunds
    else
      let st0 := jar.statistics
      let st1 := { st0 with totalWithdrawals := st0.totalWithdrawals + amount,
                            transactionCount := st0.transactionCount + 1 }
      let st2 := { st1 with averageDeposit := st1.totalDeposits / (st1.transactionCount : Rat) }
      Except.ok { jar with balance := jar.balance - amount, statistics := st2 }

/-- The single-jar ledger state: the jar document, the transaction rows of
that jar, and the next fresh transaction id the store will assign. -/
structure St where
  jar : Jar
  txns : List Transaction
  nextId : Nat
  deriving DecidableEq, Repr

/-- Outcome of one handler invocation.  `err e s` carries the state the
database holds after the failure (normally unchanged, except for partial
effects a handler persisted before throwing). -/
inductive StepResult where
  | ok (s : St)
  | err (e : Err) (s : St)
  deriving DecidableEq, Repr

/-- The `isFloat min 0.01` validator bound shared by the routes and the
`amount >= 0.01` schema constraint. -/
def minAmount : Rat := 1 / 100

/-- `POST /api/transactions/deposit` (transactions.js lines 63-192).
`useBank` is true when a bank account id is supplied (and the account
exists, is active and belongs to the caller); in that case the
transaction is created `pending` and the balance is applied later by the
settlement callback.  The permission check is the User-model role check
`hasPermission(swearJarId, 'member')`, exactly as in the source. -/
def deposit (s : St) (uid : Nat) (amount : Rat) (useBank : Bool) : StepResult :=
  if amount < minAmount then .err .validationFailed s
  else if !userHasRole s.jar uid .member then .err .accessDenied s
  else if amount < s.jar.settings.minimumDeposit then .err .limitExceeded s
  else if s.jar.settings.maximumDeposit < amount then .err .limitExceeded s
  else
    let t : Transaction :=
      { id := s.nextId, userId := uid, txType := .deposit, amount := amount,
        status := if useBank then .pending else .completed,
        balanceAfter := s.jar.balance + amount }
    let s1 : St := { s with txns := s.txns ++ [t], nextId := s.nextId + 1 }
    if useBank then .ok s1
    else
      match s1.jar.updateBalance amount true with
      | .ok j => .ok { s1 with jar := j }
      | .error e => .err e s1

/-- `POST /api/transactions/withdrawal` (transactions.js lines 197-312).
`bankVerified` abbreviates: the supplied bank account exists, is active,
belongs to the caller, and has `permissions.canWithdraw`.  The source
computes the created status with one conditional on
`settings.requireApprovalForWithdrawals` and then branches on the same
flag to decide whether to apply the balance; the embedding branches once,
with the status written literally in each arm. -/
def withdrawal (s : St) (uid : Nat) (amount : Rat) (bankVerified : Bool) : StepResult :=
  if amount < minAmount then .err .validationFailed s
  else if !(s.jar.hasPermission uid .canWithdraw) then .err .accessDenied s
  else if s.jar.balance < amount then .err .insufficientFunds s
  else if !bankVerified then .err .validationFailed s
  else if s.jar.settings.requireApprovalForWithdrawals then
    let t : Transaction :=
      { id := s.nextId, userId := uid, txType := .withdrawal, amount := amount,
        status := .pending, balanceAfter := s.jar.balance - amount }
    .ok { s with txns := s.txns ++ [t], nextId := s.nextId + 1 }
  else
    let t : Transaction :=
      { id := s.nextId, userId := uid, txType := .withdrawal, amount := amount,
        status := .completed, balanceAfter := s.jar.balance - amount }
    let s1 : St := { s with txns := s.txns ++ [t], nextId := s.nextId + 1 }
    match s1.jar.updateBalance amount false with
    | .ok j => .ok { s1 with jar := j }
    | .error e => .err e s1

/-- Case-insensitive comparison used by the penalty handler
(`w.word.toLowerCase() === swearWord.toLowerCase()`): per-character
lowering, modelled on the underlying character list. -/
def lowerEq (a b : String) : Bool :=
  a.data.map Char.toLower == b.data.map Char.toLower

/-- Penalty-amount resolution of `POST /api/transactions/penalty`
(transactions.js lines 353-360): the explicit amount when supplied,
otherwise the configured per-word penalty matched case-insensitively,
otherwise the default 1.00. -/
def resolvePenalty (jar : Jar) (word : String) (explicitAmount : Option Rat) : Rat :=
  match explicitAmount with
  | some a => a
  | none =>
    match jar.settings.swearWords.find? (fun w => lowerEq w.word word) with
    | some w => w.penalty
    | none => 1

/-- `POST /api/transactions/penalty` (transactions.js lines 317-399).
The `amount < minAmount` rejection after resolution is the mongoose
`amount min 0.01` schema validation that `transaction.save()` runs. -/
def penalty (s : St) (uid : Nat) (word : String) (explicitAmount : Option Rat) : StepResult :=
  if word.length < 1 then .err .validationFailed s
  else if explicitAmount.any (fun a => a < minAmount) then .err .validationFailed s
  else if !userHasRole s.jar uid .member then .err .accessDenied s
  else
    let amt := resolvePenalty s.jar word explicitAmount
    if amt < minAmount then .err .validationFailed s
    else
      let t : Transaction :=
        { id := s.nextId, userId := uid, txType := .penalty, amount := amt,
          status := .completed, balanceAfter := s.jar.balance + amt,
          metadata := { swearWord := some word } }
      let s1 : St := { s with txns := s.txns ++ [t], nextId := s.nextId + 1 }
      match s1.jar.updateBalance amt true with
      | .ok j => .ok { s1 with jar := j }
      | .error e => .err e s1

/-- Write-back of a saved transaction document: replace the row with the
matching id. -/
def setTx (txns : List Transaction) (txId : Nat) (t : Transaction) : List Transaction :=
  txns.map (fun x => if x.id == txId then t else x)

/-- `PUT /api/transactions/:id/approve` (transactions.js lines 436-477).
The handler saves the status change (and the approver metadata) and only
then calls `updateBalance`; when the balance update throws, the saved
status change survives, which the error branch reflects. -/
def approve (s : St) (uid : Nat) (txId : Nat) : StepResult :=
  match s.txns.find? (fun x => x.id == txId) with
  | none => .err .notFound s
  | some t =>
    if t.txType != .withdrawal || t.status != .pending then .err .invalidState s
    else if !(s.jar.hasPermission uid .canWithdraw) then .err .accessDenied s
    else
      let t1 := { t with status := TxStatus.completed,
                         metadata := { t.metadata with approvedBy := some uid } }
      let s1 : St := { s with txns := setTx s.txns txId t1 }
      match s1.jar.updateBalance t.amount false with
      | .ok j => .ok { s1 with jar := j }
      | .error e => .err e s1

/-- `PUT /api/transactions/:id/cancel` (transactions.js lines 482-521). -/
def cancel (s : St) (uid : Nat) (txId : Nat) : StepResult :=
  match s.txns.find? (fun x => x.id == txId) with
  | none => .err .notFound s
  | some t =>
    if t.status != .pending then .err .invalidState s
    else if !(t.userId == uid || s.jar.hasPermission uid .canWithdraw) then .err .accessDenied s
    else .ok { s with txns := setTx s.txns txId { t with status := TxStatus.cancelled } }

/-- Success branch of the simulated bank-transfer settlement callback for
a pending bank deposit (transactions.js lines 155-160): apply the balance
and mark the transaction completed.  The callback is scheduled exactly
once, at creation, for the freshly created pending deposit; the
pending-deposit guard encodes that one-shot scheduling discipline. -/
def settleDeposit (s : St) (txId : Nat) : StepResult :=
  match s.txns.find? (fun x => x.id == txId) with
  | none => .err .notFound s
  | some t =>
    if t.txType != .deposit || t.status != .pending then .err .invalidState s
    else
      match s.jar.updateBalance t.amount true with
      | .ok j => .ok { s with jar := j, txns := setTx s.txns txId { t with status := TxStatus.completed } }
      | .error e => .err e s

/-- Failure branch of the settlement callback (transactions.js lines
161-165): the transaction is marked `failed`, with no balance effect. -/
def settleFailDeposit (s : St) (txId : Nat) : StepResult :=
  match s.txns.find? (fun x => x.id == txId) with
  | none => .err .notFound s
  | some t =>
    if t.txType != .deposit || t.status != .pending then .err .invalidState s
    else .ok { s with txns := setTx s.txns txId { t with status := TxStatus.failed } }

/-- `Transaction.isReversible` (Transaction.js lines 284-290). -/
def Transaction.isReversible (t : Transaction) : Bool :=
  (t.txType == .deposit || t.txType == .penalty) && t.status == .completed

/-- `Transaction.updateStatus` (Transaction.js lines 199-220): writes the
new status unconditionally (the only possible failures are database
errors, which the embedding does not model); timestamps elided. -/
def Transaction.updateStatus (t : Transaction) (newStatus : TxStatus) : Except Err Transaction :=
  Except.ok { t with status := newStatus }

/-- `Transaction.createReverseTransaction` (Transaction.js lines 293-319)
lifted to the ledger state: throws when the original is not reversible,
otherwise inserts the reverse row built by the method.  `Transaction.create`
defaults the status of the new row to `pending`, and the method performs
no balance update. -/
def reverse (s : St) (txId : Nat) (reason : Option String) : StepResult :=
  match s.txns.find? (fun x => x.id == txId) with
  | none => .err .notFound s
  | some t =>
    if !t.isReversible then .err .invalidState s
    else
      let rType : TxType :=
        if t.txType == .deposit || t.txType == .penalty then .refund else .deposit
      let md : TxMeta :=
        { t.metadata with originalTransactionId := some t.id, reverseReason := reason }
      let rt : Transaction :=
        { id := s.nextId, userId := t.userId, txType := rType, amount := t.amount,
          status := .pending, balanceAfter := t.balanceAfter - t.amount, metadata := md }
      .ok { s with txns := s.txns ++ [rt], nextId := s.nextId + 1 }

/-- The ledger operations of the transaction routes, as one alphabet for
operation histories. -/
inductive Op where
  | deposit (uid : Nat) (amount : Rat) (useBank : Bool)
  | settleDeposit (txId : Nat)
  | settleFailDeposit (txId : Nat)
  | withdrawal (uid : Nat) (amount : Rat) (bankVerified : Bool)
  | approve (uid : Nat) (txId : Nat)
  | cancel (uid : Nat) (txId : Nat)
  | penalty (uid : Nat) (word : String) (explicitAmount : Option Rat)
  | reverse (txId : Nat) (reason : Option String)
  deriving DecidableEq, Repr

/-- Dispatch one operation. -/
def step (s : St) : Op → StepResult
  | .deposit uid a b => deposit s uid a b
  | .settleDeposit i => settleDeposit s i
  | .settleFailDeposit i => settleFailDeposit s i
  | .withdrawal uid a v => withdrawal s uid a v
  | .approve uid i => approve s uid i
  | .cancel uid i => cancel s uid i
  | .penalty uid w a => penalty s uid w a
  | .reverse i r => reverse s i r

/-- Run a history of operations, requiring every operation to succeed. -/
def runOk : St → List Op → Option St
  | s, [] => some s
  | s, op :: ops =>
    match step s op with
    | .ok s1 => runOk s1 ops
    | .err _ _ => none

/-- The signed delta a transaction contributes to the jar balance:
deposits and penalties positive, withdrawals and refunds negative. -/
def signedDelta (t : Transaction) : Rat :=
  match t.txType with
  | .deposit => t.amount
  | .penalty => t.amount
  | .withdrawal => -t.amount
  | .refund => -t.amount
  | .transfer => -t.amount

/-- The contribution of one row to the completed-transaction sum. -/
def contrib (t : Transaction) : Rat :=
  if t.status = TxStatus.completed then signedDelta t else 0

/-- Sum of signed deltas of all completed transactions. -/
def completedSum (txns : List Transaction) : Rat :=
  txns.foldr (fun t acc => contrib t + acc) 0

/-- The ids of a transaction list. -/
def idsOf (txns : List Transaction) : List Nat := txns.map (fun t => t.id)

/-- The ledger invariant: the balance is the sum of signed deltas of the
completed transactions and is non-negative; transaction ids are below the
next fresh id and pairwise distinct; every stored amount respects the
`amount >= 0.01` schema constraint. -/
def Inv (s : St) : Prop :=
  s.jar.balance = completedSum s.txns ∧ 0 ≤ s.jar.balance ∧
    (∀ t ∈ s.txns, t.id < s.nextId) ∧ (idsOf s.txns).Nodup ∧
    (∀ t ∈ s.txns, minAmount ≤ t.amount)

/-- Partial permission overrides, as the optional `permissions` argument
of the Mongo `addMember` (spread-merged over the defaults). -/
structure PermissionOverrides where
  canDeposit : Option Bool := none
  canWithdraw : Option Bool := none
  canInvite : Option Bool := none
  canViewTransactions : Option Bool := none
  deriving DecidableEq, Repr

/-- The spread-merge `\x7b ...defaultPermissions, ...permissions \x7d` of
the Mongo `addMember`. -/
def mergePerms (d : Permissions) (o : PermissionOverrides) : Permissions :=
  { canDeposit := o.canDeposit.getD d.canDeposit,
    canWithdraw := o.canWithdraw.getD d.canWithdraw,
    canInvite := o.canInvite.getD d.canInvite,
    canViewTransactions := o.canViewTransactions.getD d.canViewTransactions }

/-- The role-dependent defaults of `swearJarSchema.methods.addMember`
(SwearJar.js lines 147-152). -/
def mongoDefaultPerms (role : Role) : Permissions :=
  { canDeposit := true,
    canWithdraw := role == Role.owner || role == Role.admin,
    canInvite := role == Role.owner || role == Role.admin,
    canViewTransactions := true }

/-- `swearJarSchema.methods.addMember` (SwearJar.js lines 141-161). -/
def Jar.addMember (jar : Jar) (uid : Nat) (role : Role) (o : PermissionOverrides) :
    Except Err Jar :=
  match jar.members.find? (fun m => m.userId == uid) with
  | some _ => Except.error Err.alreadyMember
  | none =>
    Except.ok { jar with members :=
      jar.members ++ [{ userId := uid, role := role,
                        permissions := mergePerms (mongoDefaultPerms role) o }] }

/-- The defaults of the Supabase `SwearJar.addMember` (SwearJar.js lines
455-460), `User.addToSwearJar`, and the `swear_jar_members.permissions`
column default of `schema.sql`. -/
def supabaseDefaultPerms : Permissions :=
  { canDeposit := true, canWithdraw := false, canInvite := false,
    canViewTransactions := true }

/-- Permission resolution of the Supabase `SwearJar.addMember`:
`permissions || defaultPermissions` is an all-or-nothing choice. -/
def supabaseMemberPerms (permissions : Option Permissions) : Permissions :=
  permissions.getD supabaseDefaultPerms

/-- Permission resolution of `User.addToSwearJar` (part_012 lines
211-238): identical all-or-nothing choice over the same defaults. -/
def userAddToSwearJarPerms (permissions : Option Permissions) : Permissions :=
  permissions.getD supabaseDefaultPerms

/-!
## Interleaving model of the withdrawal handler

The Mongo withdrawal handler is a read-then-write sequence with no
locking: it reads the jar document (`findById`), checks
`swearJar.balance < amount` on that snapshot, inserts the transaction,
and then `updateBalance` re-checks and saves `snapshot - amount` from the
same in-memory document.  Two concurrent requests on the same jar are
modelled as two two-phase threads over a shared stored balance.
-/

/-- One in-flight withdrawal request: the jar balance it read with
`findById` (none before the read), and its outcome once finished. -/
structure WReq where
  snapshot : Option Rat := none
  finished : Bool := false
  succeeded : Bool := false
  deriving DecidableEq, Repr

/-- Shared state of the two-request interleaving: the stored jar balance
and both requests. -/
structure WState where
  dbBalance : Rat
  req1 : WReq := {}
  req2 : WReq := {}
  deriving DecidableEq, Repr

/-- Atomic micro-steps: each request reads the jar document, then (if the
snapshot passed the balance check) saves `snapshot - amount` back. -/
inductive WStep where
  | read1
  | write1
  | read2
  | write2
  deriving DecidableEq, Repr

/-- The read phase: take the snapshot; if it fails the
`swearJar.balance < amount` check, finish with the InsufficientFunds
response. -/
def wRead (amount : Rat) (db : Rat) (r : WReq) : WReq :=
  if r.snapshot.isSome then r
  else if db < amount then
    { r with snapshot := some db, finished := true, succeeded := false }
  else { r with snapshot := some db }

/-- The write phase: `updateBalance` runs on the stale in-memory document,
re-checks its own (snapshot) balance, and `save()` writes
`snapshot - amount` to the store — last writer wins. -/
def wWrite (amount : Rat) (db : Rat) (r : WReq) : Rat × WReq :=
  match r.snapshot with
  | none => (db, r)
  | some snap =>
    if r.finished then (db, r)
    else (snap - amount, { r with finished := true, succeeded := true })

/-- One interleaving micro-step of the two concurrent requests. -/
def wStep (amount : Rat) (w : WState) : WStep → WState
  | .read1 => { w with req1 := wRead amount w.dbBalance w.req1 }
  | .write1 =>
    let p := wWrite amount w.dbBalance w.req1
    { w with dbBalance := p.1, req1 := p.2 }
  | .read2 => { w with req2 := wRead amount w.dbBalance w.req2 }
  | .write2 =>
    let p := wWrite amount w.dbBalance w.req2
    { w with dbBalance := p.1, req2 := p.2 }

/-- Run a schedule of micro-steps. -/
def wRun (amount : Rat) (w : WState) (sched : List WStep) : WState :=
  sched.foldl (wStep amount) w

/-- A jar with one owner member, no approval requirement and default
limits, used as concrete input by several witnesses. -/
def c1Jar : Jar :=
  { balance := 0,
    settings := { requireApprovalForWithdrawals := false, minimumDeposit := 1/100,
                  maximumDeposit := 1000, swearWords := [] },
    statistics := { totalDeposits := 0, totalWithdrawals := 0, transactionCount := 0,
                    averageDeposit := 0 },
    members := [{ userId := 1, role := Role.owner,
                  permissions := { canDeposit := true, canWithdraw := true,
                                   canInvite := true, canViewTransactions := true } }] }

/-- Fresh ledger state over `c1Jar`. -/
def c1St : St := { jar := c1Jar, txns := [], nextId := 0 }

/-- A concrete successful history: deposit 25, penalty for "dang"
(unconfigured word, default 1.00), withdraw 6. -/
def c1Ops : List Op :=
  [Op.deposit 1 25 false, Op.penalty 1 "dang" none, Op.withdrawal 1 6 true]

/-- The state `c1Ops` produces from `c1St`. -/
def c1Final : St :=
  { jar := { balance := 20,
             settings := { requireApprovalForWithdrawals := false, minimumDeposit := 1/100,
                           maximumDeposit := 1000, swearWords := [] },
             statistics := { totalDeposits := 26, totalWithdrawals := 6,
                             transactionCount := 3, averageDeposit := 26/3 },
             members := [{ userId := 1, role := Role.owner,
                           permissions := { canDeposit := true, canWithdraw := true,
                                            canInvite := true, canViewTransactions := true } }] },
    txns := [{ id := 0, userId := 1, txType := TxType.deposit, amount := 25,
               status := TxStatus.completed, balanceAfter := 25 },
             { id := 1, userId := 1, txType := TxType.penalty, amount := 1,
               status := TxStatus.completed, balanceAfter := 26,
               metadata := { swearWord := some "dang" } },
             { id := 2, userId := 1, txType := TxType.withdrawal, amount := 6,
               status := TxStatus.completed, balanceAfter := 20 }],
    nextId := 3 }

/-- State with balance 10.00 over the base jar, for the withdrawal
precondition witnesses. -/
def tenSt : St := { jar := { c1Jar with balance := 10 }, txns := [], nextId := 0 }

/-- The state a full-balance withdrawal of 10.00 produces from `tenSt`. -/
def c4OkSt : St :=
  { jar := { balance := 0,
             settings := { requireApprovalForWithdrawals := false, minimumDeposit := 1/100,
                           maximumDeposit := 1000, swearWords := [] },
             statistics := { totalDeposits := 0, totalWithdrawals := 10,
                             transactionCount := 1, averageDeposit := 0 },
             members := [{ userId := 1, role := Role.owner,
                           permissions := { canDeposit := true, canWithdraw := true,
                                            canInvite := true, canViewTransactions := true } }] },
    txns := [{ id := 0, userId := 1, txType := TxType.withdrawal, amount := 10,
               status := TxStatus.completed, balanceAfter := 0 }],
    nextId := 1 }

/-- Jar of the penalty scenario: `swearWords = [dang: 2.50]`, balance 25. -/
def c6Jar : Jar :=
  { balance := 25,
    settings := { requireApprovalForWithdrawals := false, minimumDeposit := 1/100,
                  maximumDeposit := 1000,
                  swearWords := [{ word := "dang", penalty := 5/2 }] },
    statistics := { totalDeposits := 0, totalWithdrawals := 0, transactionCount := 0,
                    averageDeposit := 0 },
    members := [{ userId := 1, role := Role.owner,
                  permissions := { canDeposit := true, canWithdraw := true,
                                   canInvite := true, canViewTransactions := true } }] }

/-- Fresh ledger state over `c6Jar`. -/
def c6St : St := { jar := c6Jar, txns := [], nextId := 0 }

/-- The state the "DANG" penalty produces from `c6St`. -/
def c6OkSt : St :=
  { jar := { balance := 55/2,
             settings := { requireApprovalForWithdrawals := false, minimumDeposit := 1/100,
                           maximumDeposit := 1000,
                           swearWords := [{ word := "dang", penalty := 5/2 }] },
             statistics := { totalDeposits := 5/2, totalWithdrawals := 0,
                             transactionCount := 1, averageDeposit := 5/2 },
             members := [{ userId := 1, role := Role.owner,
                           permissions := { canDeposit := true, canWithdraw := true,
                                            canInvite := true, canViewTransactions := true } }] },
    txns := [{ id := 0, userId := 1, txType := TxType.penalty, amount := 5/2,
               status := TxStatus.completed, balanceAfter := 55/2,
               metadata := { swearWord := some "DANG" } }],
    nextId := 1 }

/-- Jar whose member 2 has every capability flag off except
`canViewTransactions` — in particular `canDeposit = false`. -/
def c8Jar : Jar :=
  { balance := 0,
    settings := { requireApprovalForWithdrawals := true, minimumDeposit := 1/100,
                  maximumDeposit := 1000, swearWords := [] },
    statistics := { totalDeposits := 0, totalWithdrawals := 0, transactionCount := 0,
                    averageDeposit := 0 },
    members := [{ userId := 1, role := Role.owner,
                  permissions := { canDeposit := true, canWithdraw := true,
                                   canInvite := true, canViewTransactions := true } },
                { userId := 2, role := Role.member,
                  permissions := { canDeposit := false, canWithdraw := false,
                                   canInvite := false, canViewTransactions := true } }] }

/-- Fresh ledger state over `c8Jar`. -/
def c8St : St := { jar := c8Jar, txns := [], nextId := 0 }

/-- The state the no-canDeposit member's deposit of 5.00 produces from
`c8St`. -/
def c8OkSt : St :=
  { jar := { balance := 5,
             settings := { requireApprovalForWithdrawals := true, minimumDeposit := 1/100,
                           maximumDeposit := 1000, swearWords := [] },
             statistics := { totalDeposits := 5, totalWithdrawals := 0,
                             transactionCount := 1, averageDeposit := 5 },
             members := [{ userId := 1, role := Role.owner,
                           permissions := { canDeposit := true, canWithdraw := true,
                                            canInvite := true, canViewTransactions := true } },
                         { userId := 2, role := Role.member,
                           permissions := { canDeposit := false, canWithdraw := false,
                                            canInvite := false, canViewTransactions := true } }] },
    txns := [{ id := 0, userId := 2, txType := TxType.deposit, amount := 5,
               status := TxStatus.completed, balanceAfter := 5 }],
    nextId := 1 }

/-- The interleaving in which both withdrawal requests read the jar
before either writes it back. -/
def c5Schedule : List WStep := [WStep.read1, WStep.read2, WStep.write1, WStep.write2]

/-- Jar with one owner member and `requireApprovalForWithdrawals = true`. -/
def appJar : Jar :=
  { balance := 0,
    settings := { requireApprovalForWithdrawals := true, minimumDeposit := 1/100,
                  maximumDeposit := 1000, swearWords := [] },
    statistics := { totalDeposits := 0, totalWithdrawals := 0, transactionCount := 0,
                    averageDeposit := 0 },
    members := [{ userId := 1, role := Role.owner,
                  permissions := { canDeposit := true, canWithdraw := true,
                                   canInvite := true, canViewTransactions := true } }] }

/-- Fresh ledger state over `appJar`. -/
def appSt : St := { jar := appJar, txns := [], nextId := 0 }

/-- Approval-required jar with balance 20.00, for the approval-flow
witness. -/
def c7WSt : St := { jar := { appJar with balance := 20 }, txns := [], nextId := 0 }

/-- The state the withdrawal of 10.00 produces from `c7WSt`: the
transaction is created pending, the balance untouched. -/
def c7PendSt : St :=
  { jar := { balance := 20,
             settings := { requireApprovalForWithdrawals := true, minimumDeposit := 1/100,
                           maximumDeposit := 1000, swearWords := [] },
             statistics := { totalDeposits := 0, totalWithdrawals := 0,
                             transactionCount := 0, averageDeposit := 0 },
             members := [{ userId := 1, role := Role.owner,
                           permissions := { canDeposit := true, canWithdraw := true,
                                            canInvite := true, canViewTransactions := true } }] },
    txns := [{ id := 0, userId := 1, txType := TxType.withdrawal, amount := 10,
               status := TxStatus.pending, balanceAfter := 10 }],
    nextId := 1 }

/-- The pending withdrawal row of `c7PendSt`. -/
def c7PendTx : Transaction :=
  { id := 0, userId := 1, txType := TxType.withdrawal, amount := 10,
    status := TxStatus.pending, balanceAfter := 10 }

/-- The state approving that pending withdrawal produces from `c7PendSt`. -/
def c7DoneSt : St :=
  { jar := { balance := 10,
             settings := { requireApprovalForWithdrawals := true, minimumDeposit := 1/100,
                           maximumDeposit := 1000, swearWords := [] },
             statistics := { totalDeposits := 0, totalWithdrawals := 10,
                             transactionCount := 1, averageDeposit := 0 },
             members := [{ userId := 1, role := Role.owner,
                           permissions := { canDeposit := true, canWithdraw := true,
                                            canInvite := true, canViewTransactions := true } }] },
    txns := [{ id := 0, userId := 1, txType := TxType.withdrawal, amount := 10,
               status := TxStatus.completed, balanceAfter := 10,
               metadata := { approvedBy := some 1 } }],
    nextId := 1 }

/-- History producing two pending withdrawals of 10.00 against a 10.00
balance and approving the first: the second approval must then fail. -/
def c7Ops : List Op :=
  [Op.deposit 1 10 false, Op.withdrawal 1 10 true, Op.withdrawal 1 10 true, Op.approve 1 1]

/-- The state `c7Ops` produces from `appSt`: balance 0, transaction 2
still pending. -/
def c7ReadySt : St :=
  { jar := { balance := 0,
             settings := { requireApprovalForWithdrawals := true, minimumDeposit := 1/100,
                           maximumDeposit := 1000, swearWords := [] },
             statistics := { totalDeposits := 10, totalWithdrawals := 10,
                             transactionCount := 2, averageDeposit := 5 },
             members := [{ userId := 1, role := Role.owner,
                           permissions := { canDeposit := true, canWithdraw := true,
                                            canInvite := true, canViewTransactions := true } }] },
    txns := [{ id := 0, userId := 1, txType := TxType.deposit, amount := 10,
               status := TxStatus.completed, balanceAfter := 10 },
             { id := 1, userId := 1, txType := TxType.withdrawal, amount := 10,
               status := TxStatus.completed, balanceAfter := 0,
               metadata := { approvedBy := some 1 } },
             { id := 2, userId := 1, txType := TxType.withdrawal, amount := 10,
               status := TxStatus.pending, balanceAfter := 0 }],
    nextId := 3 }

/-- The state the failing approval of transaction 2 leaves behind: the
status write was persisted before `updateBalance` threw, so the
transaction is completed while the balance is unchanged. -/
def c7BrokenSt : St :=
  { jar := { balance := 0,
             settings := { requireApprovalForWithdrawals := true, minimumDeposit := 1/100,
                           maximumDeposit := 1000, swearWords := [] },
             statistics := { totalDeposits := 10, totalWithdrawals := 10,
                             transactionCount := 2, averageDeposit := 5 },
             members := [{ userId := 1, role := Role.owner,
                           permissions := { canDeposit := true, canWithdraw := true,
                                            canInvite := true, canViewTransactions := true } }] },
    txns := [{ id := 0, userId := 1, txType := TxType.deposit, amount := 10,
               status := TxStatus.completed, balanceAfter := 10 },
             { id := 1, userId := 1, txType := TxType.withdrawal, amount := 10,
               status := TxStatus.completed, balanceAfter := 0,
               metadata := { approvedBy := some 1 } },
             { id := 2, userId := 1, txType := TxType.withdrawal, amount := 10,
               status := TxStatus.completed, balanceAfter := 0,
               metadata := { approvedBy := some 1 } }],
    nextId := 3 }

/-- Transaction 2 of `c7ReadySt`: a pending withdrawal of 10.00. -/
def c7PendingTx : Transaction :=
  { id := 2, userId := 1, txType := TxType.withdrawal, amount := 10,
    status := TxStatus.pending, balanceAfter := 0 }

/-- Transaction 2 of `c7BrokenSt`: completed by the failed approval. -/
def c7CompletedTx : Transaction :=
  { id := 2, userId := 1, txType := TxType.withdrawal, amount := 10,
    status := TxStatus.completed, balanceAfter := 0,
    metadata := { approvedBy := some 1 } }

/-- History whose pending withdrawal is approved only after a further
deposit changed the balance: deposit 20, withdraw 10 (goes pending),
deposit 5, approve the withdrawal. -/
def c2Ops : List Op :=
  [Op.deposit 1 20 false, Op.withdrawal 1 10 true, Op.deposit 1 5 false, Op.approve 1 1]

/-- The state `c2Ops` produces from `appSt`: balance 15, while the
approved withdrawal still carries its creation-time
`balanceAfter = 10`. -/
def c2FinalSt : St :=
  { jar := { balance := 15,
             settings := { requireApprovalForWithdrawals := true, minimumDeposit := 1/100,
                           maximumDeposit := 1000, swearWords := [] },
             statistics := { totalDeposits := 25, totalWithdrawals := 10,
                             transactionCount := 3, averageDeposit := 25/3 },
             members := [{ userId := 1, role := Role.owner,
                           permissions := { canDeposit := true, canWithdraw := true,
                                            canInvite := true, canViewTransactions := true } }] },
    txns := [{ id := 0, userId := 1, txType := TxType.deposit, amount := 20,
               status := TxStatus.completed, balanceAfter := 20 },
             { id := 1, userId := 1, txType := TxType.withdrawal, amount := 10,
               status := TxStatus.completed, balanceAfter := 10,
               metadata := { approvedBy := some 1 } },
             { id := 2, userId := 1, txType := TxType.deposit, amount := 5,
               status := TxStatus.completed, balanceAfter := 25 }],
    nextId := 3 }

/-- Transaction 1 of `c2FinalSt`: completed with the stale creation-time
`balanceAfter`. -/
def c2StaleTx : Transaction :=
  { id := 1, userId := 1, txType := TxType.withdrawal, amount := 10,
    status := TxStatus.completed, balanceAfter := 10,
    metadata := { approvedBy := some 1 } }

/-- The state one completed deposit of 25.00 produces from `c1St`. -/
def c9ReadySt : St :=
  { jar := { balance := 25,
             settings := { requireApprovalForWithdrawals := false, minimumDeposit := 1/100,
                           maximumDeposit := 1000, swearWords := [] },
             statistics := { totalDeposits := 25, totalWithdrawals := 0,
                             transactionCount := 1, averageDeposit := 25 },
             members := [{ userId := 1, role := Role.owner,
                           permissions := { canDeposit := true, canWithdraw := true,
                                            canInvite := true, canViewTransactions := true } }] },
    txns := [{ id := 0, userId := 1, txType := TxType.deposit, amount := 25,
               status := TxStatus.completed, balanceAfter := 25 }],
    nextId := 1 }

/-- The deposit row of `c9ReadySt`. -/
def c9OrigTx : Transaction :=
  { id := 0, userId := 1, txType := TxType.deposit, amount := 25,
    status := TxStatus.completed, balanceAfter := 25 }

/-- The state reversing that deposit produces: the refund row is created
pending, the balance and the original row are untouched. -/
def c9AfterSt : St :=
  { jar := { balance := 25,
             settings := { requireApprovalForWithdrawals := false, minimumDeposit := 1/100,
                           maximumDeposit := 1000, swearWords := [] },
             statistics := { totalDeposits := 25, totalWithdrawals := 0,
                             transactionCount := 1, averageDeposit := 25 },
             members := [{ userId := 1, role := Role.owner,
                           permissions := { canDeposit := true, canWithdraw := true,
                                            canInvite := true, canViewTransactions := true } }] },
    txns := [{ id := 0, userId := 1, txType := TxType.deposit, amount := 25,
               status := TxStatus.completed, balanceAfter := 25 },
             { id := 1, userId := 1, txType := TxType.refund, amount := 25,
               status := TxStatus.pending, balanceAfter := 0,
               metadata := { originalTransactionId := some 0 } }],
    nextId := 2 }

/-- The refund row `createReverseTransaction` inserted. -/
def c9RefundTx : Transaction :=
  { id := 1, userId := 1, txType := TxType.refund, amount := 25,
    status := TxStatus.pending, balanceAfter := 0,
    metadata := { originalTransactionId := some 0 } }

/-- A completed withdrawal row, for the terminal-status experiments. -/
def c3Tx : Transaction :=
  { id := 0, userId := 1, txType := TxType.withdrawal, amount := 5,
    status := TxStatus.completed, balanceAfter := 5 }

/-- Ledger state holding only `c3Tx`. -/
def c3St : St := { jar := c1Jar, txns := [c3Tx], nextId := 1 }

/-!
## Support lemmas about the completed-transaction sum
-/

theorem completedSum_nil : completedSum [] = 0 := rfl

theorem completedSum_cons (t : Transaction) (l : List Transaction) :
    completedSum (t :: l) = contrib t + completedSum l := rfl

theorem completedSum_append (l : List Transaction) (t : Transaction) :
    completedSum (l ++ [t]) = completedSum l + contrib t := by
  induction l with
  | nil => simp [completedSum]
  | cons h tl ih =>
    simp only [List.cons_append, completedSum_cons, ih]
    ring

theorem idsOf_nil : idsOf [] = [] := rfl

theorem idsOf_cons (t : Transaction) (l : List Transaction) :
    idsOf (t :: l) = t.id :: idsOf l := rfl

theorem idsOf_append (l : List Transaction) (t : Transaction) :
    idsOf (l ++ [t]) = idsOf l ++ [t.id] := by
  simp [idsOf]

theorem nodup_idsOf_append {l : List Transaction} {n : Nat} {t : Transaction}
    (hb : ∀ x ∈ l, x.id < n) (hnd : (idsOf l).Nodup) (ht : t.id = n) :
    (idsOf (l ++ [t])).Nodup := by
  rw [idsOf_append]
  refine List.Nodup.append hnd (List.nodup_singleton _) ?_
  intro a ha hmem
  simp only [List.mem_singleton] at hmem
  obtain ⟨x, hx, hxa⟩ := List.mem_map.mp ha
  have := hb x hx
  omega

theorem mem_setTx {l : List Transaction} {txId : Nat} {t x : Transaction}
    (hx : x ∈ setTx l txId t) : x ∈ l ∨ x = t := by
  simp only [setTx, List.mem_map] at hx
  obtain ⟨y, hy, hxy⟩ := hx
  by_cases hh : (y.id == txId) = true
  · right
    rw [← hxy, if_pos hh]
  · left
    rw [← hxy, if_neg hh]
    exact hy

theorem setTx_of_not_mem {l : List Transaction} {txId : Nat} {t : Transaction}
    (h : ∀ x ∈ l, x.id ≠ txId) : setTx l txId t = l := by
  induction l with
  | nil => rfl
  | cons hd tl ih =>
    have hhd : (hd.id == txId) = false := by
      simp only [beq_eq_false_iff_ne, ne_eq]
      exact h hd (List.mem_cons_self hd tl)
    simp only [setTx, List.map_cons, hhd, Bool.false_eq_true, if_false, List.cons.injEq,
      true_and]
    exact ih (fun x hx => h x (List.mem_cons_of_mem hd hx))

theorem idsOf_setTx {l : List Transaction} {txId : Nat} {t : Transaction}
    (hid : t.id = txId) : idsOf (setTx l txId t) = idsOf l := by
  induction l with
  | nil => rfl
  | cons hd tl ih =>
    by_cases hh : (hd.id == txId) = true
    · simp only [setTx, List.map_cons, if_pos hh, idsOf_cons] at ih ⊢
      rw [ih, hid, eq_of_beq hh]
    · simp only [setTx, List.map_cons, if_neg hh, idsOf_cons] at ih ⊢
      rw [ih]

theorem nodup_setTx {l : List Transaction} {txId : Nat} {t : Transaction}
    (hid : t.id = txId) (hnd : (idsOf l).Nodup) : (idsOf (setTx l txId t)).Nodup := by
  rw [idsOf_setTx hid]
  exact hnd

theorem completedSum_setTx {l : List Transaction} {txId : Nat} {t t1 : Transaction}
    (hfind : l.find? (fun x => x.id == txId) = some t)
    (hnd : (idsOf l).Nodup) :
    completedSum (setTx l txId t1) = completedSum l - contrib t + contrib t1 := by
  induction l with
  | nil => simp [List.find?] at hfind
  | cons hd tl ih =>
    by_cases hh : (hd.id == txId) = true
    · simp only [List.find?, hh, Option.some.injEq] at hfind
      subst hfind
      have hmem : ∀ x ∈ tl, x.id ≠ txId := by
        intro x hx hxid
        have h1 : hd.id ∉ idsOf tl := (List.nodup_cons.mp hnd).1
        have h2 : x.id ∈ idsOf tl := List.mem_map_of_mem (fun y => y.id) hx
        rw [hxid, ← eq_of_beq hh] at h2
        exact h1 h2
      simp only [setTx, List.map_cons, if_pos hh]
      rw [show List.map (fun x => if (x.id == txId) = true then t1 else x) tl
            = setTx tl txId t1 from rfl, setTx_of_not_mem hmem, completedSum_cons,
        completedSum_cons]
      ring
    · rw [Bool.not_eq_true] at hh
      simp only [List.find?, hh] at hfind
      simp only [setTx, List.map_cons, hh, Bool.false_eq_true, if_false]
      rw [show List.map (fun x => if (x.id == txId) = true then t1 else x) tl
            = setTx tl txId t1 from rfl, completedSum_cons, completedSum_cons,
        ih hfind (List.nodup_cons.mp hnd).2]
      ring

/-!
## Preservation of the ledger invariant by each operation
-/

theorem minAmount_pos : 0 < minAmount := by norm_num [minAmount]

theorem inv_deposit {s s' : St} {uid : Nat} {a : Rat} {b : Bool}
    (hInv : Inv s) (h : deposit s uid a b = StepResult.ok s') : Inv s' := by
  obtain ⟨hbal, hpos, hbound, hnd, hamt⟩ := hInv
  cases b with
  | true =>
    simp only [deposit, if_true] at h
    split at h
    · simp at h
    split at h
    · simp at h
    split at h
    · simp at h
    split at h
    · simp at h
    rename_i hmin hmem hlo hhi
    rw [StepResult.ok.injEq] at h
    subst h
    refine ⟨?_, hpos, ?_, ?_, ?_⟩
    · rw [completedSum_append]
      simp [contrib]
      exact hbal
    · intro t ht
      rcases List.mem_append.mp ht with h1 | h1
      · exact Nat.lt_succ_of_lt (hbound t h1)
      · simp only [List.mem_singleton] at h1
        subst h1
        exact Nat.lt_succ_self _
    · exact nodup_idsOf_append hbound hnd rfl
    · intro t ht
      rcases List.mem_append.mp ht with h1 | h1
      · exact hamt t h1
      · simp only [List.mem_singleton] at h1
        subst h1
        exact not_lt.mp hmin
  | false =>
    simp only [deposit, Bool.false_eq_true, if_false, Jar.updateBalance, if_true] at h
    split at h
    · simp at h
    split at h
    · simp at h
    split at h
    · simp at h
    split at h
    · simp at h
    rename_i hmin hmem hlo hhi
    rw [StepResult.ok.injEq] at h
    subst h
    have hamin : minAmount ≤ a := not_lt.mp hmin
    refine ⟨?_, ?_, ?_, ?_, ?_⟩
    · rw [completedSum_append]
      simp [contrib, signedDelta, hbal]
    · have : (0 : Rat) < a := lt_of_lt_of_le minAmount_pos hamin
      linarith
    · intro t ht
      rcases List.mem_append.mp ht with h1 | h1
      · exact Nat.lt_succ_of_lt (hbound t h1)
      · simp only [List.mem_singleton] at h1
        subst h1
        exact Nat.lt_succ_self _
    · exact nodup_idsOf_append hbound hnd rfl
    · intro t ht
      rcases List.mem_append.mp ht with h1 | h1
      · exact hamt t h1
      · simp only [List.mem_singleton] at h1
        subst h1
        exact hamin

theorem inv_withdrawal {s s' : St} {uid : Nat} {a : Rat} {v : Bool}
    (hInv : Inv s) (h : withdrawal s uid a v = StepResult.ok s') : Inv s' := by
  obtain ⟨hbal, hpos, hbound, hnd, hamt⟩ := hInv
  simp only [withdrawal] at h
  split at h
  · simp at h
  rename_i hmin
  split at h
  · simp at h
  rename_i hperm
  split at h
  · simp at h
  rename_i hins
  split at h
  · simp at h
  rename_i hbank
  have hamin : minAmount ≤ a := not_lt.mp hmin
  have hab : a ≤ s.jar.balance := not_lt.mp hins
  split at h
  · -- approval required: pending row, no balance effect
    rw [StepResult.ok.injEq] at h
    subst h
    refine ⟨?_, hpos, ?_, ?_, ?_⟩
    · rw [completedSum_append]
      simp [contrib, hbal]
    · intro t ht
      rcases List.mem_append.mp ht with h1 | h1
      · exact Nat.lt_succ_of_lt (hbound t h1)
      · simp only [List.mem_singleton] at h1
        subst h1
        exact Nat.lt_succ_self _
    · exact nodup_idsOf_append hbound hnd rfl
    · intro t ht
      rcases List.mem_append.mp ht with h1 | h1
      · exact hamt t h1
      · simp only [List.mem_singleton] at h1
        subst h1
        exact hamin
  · -- no approval: completed row and immediate decrement
    simp only [Jar.updateBalance, Bool.false_eq_true, if_false, if_neg hins,
      StepResult.ok.injEq] at h
    subst h
    refine ⟨?_, ?_, ?_, ?_, ?_⟩
    · rw [completedSum_append]
      simp [contrib, signedDelta, hbal]
      ring
    · simp only []
      linarith
    · intro t ht
      rcases List.mem_append.mp ht with h1 | h1
      · exact Nat.lt_succ_of_lt (hbound t h1)
      · simp only [List.mem_singleton] at h1
        subst h1
        exact Nat.lt_succ_self _
    · exact nodup_idsOf_append hbound hnd rfl
    · intro t ht
      rcases List.mem_append.mp ht with h1 | h1
      · exact hamt t h1
      · simp only [List.mem_singleton] at h1
        subst h1
        exact hamin

theorem inv_penalty {s s' : St} {uid : Nat} {w : String} {ea : Option Rat}
    (hInv : Inv s) (h : penalty s uid w ea = StepResult.ok s') : Inv s' := by
  obtain ⟨hbal, hpos, hbound, hnd, hamt⟩ := hInv
  simp only [penalty] at h
  split at h
  · simp at h
  rename_i hw
  split at h
  · simp at h
  rename_i hea
  split at h
  · simp at h
  rename_i hmem
  split at h
  · simp at h
  rename_i hres
  have hamin : minAmount ≤ resolvePenalty s.jar w ea := not_lt.mp hres
  simp only [Jar.updateBalance, if_true, StepResult.ok.injEq] at h
  subst h
  refine ⟨?_, ?_, ?_, ?_, ?_⟩
  · rw [completedSum_append]
    simp [contrib, signedDelta, hbal]
  · have : (0 : Rat) < resolvePenalty s.jar w ea := lt_of_lt_of_le minAmount_pos hamin
    linarith
  · intro t ht
    rcases List.mem_append.mp ht with h1 | h1
    · exact Nat.lt_succ_of_lt (hbound t h1)
    · simp only [List.mem_singleton] at h1
      subst h1
      exact Nat.lt_succ_self _
  · exact nodup_idsOf_append hbound hnd rfl
  · intro t ht
    rcases List.mem_append.mp ht with h1 | h1
    · exact hamt t h1
    · simp only [List.mem_singleton] at h1
      subst h1
      exact hamin

theorem inv_approve {s s' : St} {uid txId : Nat}
    (hInv : Inv s) (h : approve s uid txId = StepResult.ok s') : Inv s' := by
  obtain ⟨hbal, hpos, hbound, hnd, hamt⟩ := hInv
  simp only [approve] at h
  split at h
  · simp at h
  rename_i t hfind
  split at h
  · simp at h
  rename_i hguard
  simp only [Bool.or_eq_true, bne_iff_ne, ne_eq, not_or, not_not] at hguard
  obtain ⟨htype, hstat⟩ := hguard
  split at h
  · simp at h
  rename_i hperm
  simp only [Jar.updateBalance, Bool.false_eq_true, if_false] at h
  split at h
  case _ =>
    rename_i j heq
    split at heq
    · simp at heq
    rename_i hins
    rw [Except.ok.injEq] at heq
    subst heq
    rw [StepResult.ok.injEq] at h
    subst h
    have htmem : t ∈ s.txns := List.mem_of_find?_eq_some hfind
    have hbeq := List.find?_some hfind
    have htid : t.id = txId := eq_of_beq hbeq
    refine ⟨?_, ?_, ?_, ?_, ?_⟩
    · rw [completedSum_setTx hfind hnd]
      simp [contrib, signedDelta, hstat, htype, hbal]
      ring
    · simp only []
      have := not_lt.mp hins
      linarith
    · intro x hx
      rcases mem_setTx hx with h1 | h1
      · exact hbound x h1
      · subst h1
        exact hbound t htmem
    · exact nodup_setTx htid hnd
    · intro x hx
      rcases mem_setTx hx with h1 | h1
      · exact hamt x h1
      · subst h1
        exact hamt t htmem
  case _ =>
    simp at h

theorem inv_cancel {s s' : St} {uid txId : Nat}
    (hInv : Inv s) (h : cancel s uid txId = StepResult.ok s') : Inv s' := by
  obtain ⟨hbal, hpos, hbound, hnd, hamt⟩ := hInv
  simp only [cancel] at h
  split at h
  · simp at h
  rename_i t hfind
  split at h
  · simp at h
  rename_i hstat
  simp only [bne_iff_ne, ne_eq, not_not] at hstat
  split at h
  · simp at h
  rename_i hperm
  rw [StepResult.ok.injEq] at h
  subst h
  have htmem : t ∈ s.txns := List.mem_of_find?_eq_some hfind
  have hbeq := List.find?_some hfind
  have htid : t.id = txId := eq_of_beq hbeq
  refine ⟨?_, hpos, ?_, ?_, ?_⟩
  · rw [completedSum_setTx hfind hnd]
    simp [contrib, hstat, hbal]
  · intro x hx
    rcases mem_setTx hx with h1 | h1
    · exact hbound x h1
    · subst h1
      exact hbound t htmem
  · exact nodup_setTx htid hnd
  · intro x hx
    rcases mem_setTx hx with h1 | h1
    · exact hamt x h1
    · subst h1
      exact hamt t htmem

theorem inv_settleDeposit {s s' : St} {txId : Nat}
    (hInv : Inv s) (h : settleDeposit s txId = StepResult.ok s') : Inv s' := by
  obtain ⟨hbal, hpos, hbound, hnd, hamt⟩ := hInv
  simp only [settleDeposit] at h
  split at h
  · simp at h
  rename_i t hfind
  split at h
  · simp at h
  rename_i hguard
  simp only [Bool.or_eq_true, bne_iff_ne, ne_eq, not_or, not_not] at hguard
  obtain ⟨htype, hstat⟩ := hguard
  simp only [Jar.updateBalance, if_true, StepResult.ok.injEq] at h
  subst h
  have htmem : t ∈ s.txns := List.mem_of_find?_eq_some hfind
  have hbeq := List.find?_some hfind
  have htid : t.id = txId := eq_of_beq hbeq
  have hta : minAmount ≤ t.amount := hamt t htmem
  refine ⟨?_, ?_, ?_, ?_, ?_⟩
  · rw [completedSum_setTx hfind hnd]
    simp [contrib, signedDelta, hstat, htype, hbal]
  · simp only []
    have : (0 : Rat) < t.amount := lt_of_lt_of_le minAmount_pos hta
    linarith
  · intro x hx
    rcases mem_setTx hx with h1 | h1
    · exact hbound x h1
    · subst h1
      exact hbound t htmem
  · exact nodup_setTx htid hnd
  · intro x hx
    rcases mem_setTx hx with h1 | h1
    · exact hamt x h1
    · subst h1
      exact hta

theorem inv_settleFailDeposit {s s' : St} {txId : Nat}
    (hInv : Inv s) (h : settleFailDeposit s txId = StepResult.ok s') : Inv s' := by
  obtain ⟨hbal, hpos, hbound, hnd, hamt⟩ := hInv
  simp only [settleFailDeposit] at h
  split at h
  · simp at h
  rename_i t hfind
  split at h
  · simp at h
  rename_i hguard
  simp only [Bool.or_eq_true, bne_iff_ne, ne_eq, not_or, not_not] at hguard
  obtain ⟨htype, hstat⟩ := hguard
  rw [StepResult.ok.injEq] at h
  subst h
  have htmem : t ∈ s.txns := List.mem_of_find?_eq_some hfind
  have hbeq := List.find?_some hfind
  have htid : t.id = txId := eq_of_beq hbeq
  refine ⟨?_, hpos, ?_, ?_, ?_⟩
  · rw [completedSum_setTx hfind hnd]
    simp [contrib, hstat, hbal]
  · intro x hx
    rcases mem_setTx hx with h1 | h1
    · exact hbound x h1
    · subst h1
      exact hbound t htmem
  · exact nodup_setTx htid hnd
  · intro x hx
    rcases mem_setTx hx with h1 | h1
    · exact hamt x h1
    · subst h1
      exact hamt t htmem

theorem inv_reverse {s s' : St} {txId : Nat} {reason : Option String}
    (hInv : Inv s) (h : reverse s txId reason = StepResult.ok s') : Inv s' := by
  obtain ⟨hbal, hpos, hbound, hnd, hamt⟩ := hInv
  simp only [reverse] at h
  split at h
  · simp at h
  rename_i t hfind
  split at h
  · simp at h
  rename_i hrev
  rw [StepResult.ok.injEq] at h
  subst h
  have htmem : t ∈ s.txns := List.mem_of_find?_eq_some hfind
  refine ⟨?_, hpos, ?_, ?_, ?_⟩
  · rw [completedSum_append]
    simp [contrib, hbal]
  · intro x hx
    rcases List.mem_append.mp hx with h1 | h1
    · exact Nat.lt_succ_of_lt (hbound x h1)
    · simp only [List.mem_singleton] at h1
      subst h1
      exact Nat.lt_succ_self _
  · exact nodup_idsOf_append hbound hnd rfl
  · intro x hx
    rcases List.mem_append.mp hx with h1 | h1
    · exact hamt x h1
    · simp only [List.mem_singleton] at h1
      subst h1
      exact hamt t htmem

theorem inv_step {s s' : St} {op : Op} (hInv : Inv s) (h : step s op = StepResult.ok s') :
    Inv s' := by
  cases op with
  | deposit uid a b => exact inv_deposit hInv h
  | settleDeposit i => exact inv_settleDeposit hInv h
  | settleFailDeposit i => exact inv_settleFailDeposit hInv h
  | withdrawal uid a v => exact inv_withdrawal hInv h
  | approve uid i => exact inv_approve hInv h
  | cancel uid i => exact inv_cancel hInv h
  | penalty uid w a => exact inv_penalty hInv h
  | reverse i r => exact inv_reverse hInv h

theorem inv_runOk {s s' : St} {ops : List Op} (hInv : Inv s) (h : runOk s ops = some s') :
    Inv s' := by
  induction ops generalizing s with
  | nil =>
    simp only [runOk, Option.some.injEq] at h
    subst h
    exact hInv
  | cons op ops ih =>
    simp only [runOk] at h
    split at h
    · rename_i s1 heq
      exact ih (inv_step hInv heq) h
    · simp at h

/-!
## Claim theorems
-/

/-- C1: for every sequence of ledger operations (deposits, settlements,
withdrawals, approvals, cancellations, penalties, reversals) that all
succeed, started from a state satisfying the ledger invariant (in
particular from a fresh jar), the resulting state again has
`balance = sum of signed deltas of all completed transactions` (deposits
and penalties positive, withdrawals and refunds negative) and
`balance >= 0`.  Every prefix of a successful history is itself a
successful history, so this covers every quiescent state the ledger
passes through. -/
theorem c1_ledger_invariant (s s' : St) (ops : List Op)
    (hInv : Inv s) (hrun : runOk s ops = some s') :
    s'.jar.balance = completedSum s'.txns ∧ 0 ≤ s'.jar.balance := by
  have h := inv_runOk hInv hrun
  exact ⟨h.1, h.2.1⟩

theorem c1_ledger_invariant_witness :
    Inv c1St ∧ runOk c1St c1Ops = some c1Final ∧
      (c1Final.jar.balance = completedSum c1Final.txns ∧ 0 ≤ c1Final.jar.balance) := by
  have h1 : Inv c1St := by
    refine ⟨rfl, le_refl 0, ?_, List.nodup_nil, ?_⟩ <;> simp [c1St]
  have h2 : runOk c1St c1Ops = some c1Final := by
    norm_num [runOk, step, deposit, penalty, withdrawal, Jar.updateBalance, userHasRole,
      Jar.hasPermission, resolvePenalty, lowerEq, minAmount, c1St, c1Jar, c1Ops, c1Final,
      List.find?, roleRank, Permissions.get, String.length]
  exact ⟨h1, h2, c1_ledger_invariant c1St c1Final c1Ops h1 h2⟩

/-- C4: for a withdrawal request with a valid amount by a caller holding
`canWithdraw` (with a verified bank account): when the amount exceeds the
jar balance, the handler fails with `InsufficientFunds` and returns the
ledger state unchanged — no transaction row, no balance change, no
statistics change; when the amount is at most the balance (withdrawing
exactly the full balance included), the balance precondition passes and
the handler succeeds, immediately (approval off) or as a pending
transaction (approval on). -/
theorem c4_withdrawal_precondition (s : St) (uid : Nat) (a : Rat)
    (hmin : minAmount ≤ a)
    (hperm : s.jar.hasPermission uid PermKey.canWithdraw = true) :
    (s.jar.balance < a → withdrawal s uid a true = StepResult.err Err.insufficientFunds s) ∧
    (a ≤ s.jar.balance → s.jar.settings.requireApprovalForWithdrawals = false →
      withdrawal s uid a true = StepResult.ok
        { jar := { balance := s.jar.balance - a, settings := s.jar.settings,
                   statistics := { totalDeposits := s.jar.statistics.totalDeposits,
                                   totalWithdrawals := s.jar.statistics.totalWithdrawals + a,
                                   transactionCount := s.jar.statistics.transactionCount + 1,
                                   averageDeposit := s.jar.statistics.totalDeposits /
                                     ((s.jar.statistics.transactionCount + 1 : Nat) : Rat) },
                   members := s.jar.members },
          txns := s.txns ++ [{ id := s.nextId, userId := uid, txType := TxType.withdrawal,
                               amount := a, status := TxStatus.completed,
                               balanceAfter := s.jar.balance - a }],
          nextId := s.nextId + 1 }) ∧
    (a ≤ s.jar.balance → s.jar.settings.requireApprovalForWithdrawals = true →
      withdrawal s uid a true = StepResult.ok
        { jar := s.jar,
          txns := s.txns ++ [{ id := s.nextId, userId := uid, txType := TxType.withdrawal,
                               amount := a, status := TxStatus.pending,
                               balanceAfter := s.jar.balance - a }],
          nextId := s.nextId + 1 }) := by
  refine ⟨?_, ?_, ?_⟩
  · intro hlt
    rw [withdrawal, if_neg (not_lt.mpr hmin), hperm]
    simp only [Bool.not_true, Bool.false_eq_true, if_false]
    rw [if_pos hlt]
  · intro hle hra
    rw [withdrawal, if_neg (not_lt.mpr hmin), hperm]
    simp only [Bool.not_true, Bool.false_eq_true, if_false]
    rw [if_neg (not_lt.mpr hle), hra]
    simp only [Bool.not_true, Bool.false_eq_true, if_false, Jar.updateBalance]
    rw [if_neg (not_lt.mpr hle)]
  · intro hle hra
    rw [withdrawal, if_neg (not_lt.mpr hmin), hperm]
    simp only [Bool.not_true, Bool.false_eq_true, if_false]
    rw [if_neg (not_lt.mpr hle), hra]
    simp only [Bool.not_true, Bool.false_eq_true, if_false, if_true]

theorem c4_withdrawal_precondition_witness :
    (minAmount ≤ (15 : Rat) ∧ tenSt.jar.hasPermission 1 PermKey.canWithdraw = true ∧
      tenSt.jar.balance < 15) ∧
    withdrawal tenSt 1 15 true = StepResult.err Err.insufficientFunds tenSt ∧
    (minAmount ≤ (10 : Rat) ∧ (10 : Rat) ≤ tenSt.jar.balance) ∧
    withdrawal tenSt 1 10 true = StepResult.ok c4OkSt := by
  have hperm : tenSt.jar.hasPermission 1 PermKey.canWithdraw = true := by
    norm_num [tenSt, c1Jar, Jar.hasPermission, List.find?]
  have hb15 : tenSt.jar.balance < 15 := by norm_num [tenSt, c1Jar]
  have hb10 : (10 : Rat) ≤ tenSt.jar.balance := by norm_num [tenSt, c1Jar]
  have h15 := c4_withdrawal_precondition tenSt 1 15 (by norm_num [minAmount]) hperm
  have h10 := c4_withdrawal_precondition tenSt 1 10 (by norm_num [minAmount]) hperm
  refine ⟨⟨by norm_num [minAmount], hperm, hb15⟩, h15.1 hb15,
    ⟨by norm_num [minAmount], hb10⟩, ?_⟩
  have hok := h10.2.1 hb10 rfl
  rw [hok]
  norm_num [tenSt, c1Jar, c4OkSt]

/-- C6: a penalty by a jar member with a valid word and (optional) valid
explicit amount, whose resolved amount passes the transaction schema
minimum: the handler succeeds; the created transaction is `completed`
immediately (no approval gate), its amount is the resolved penalty
amount — the explicit amount when supplied, else the configured per-word
penalty matched case-insensitively, else the 1.00 default — the jar
balance is incremented by exactly that amount, and the triggering word is
recorded in the transaction metadata. -/
theorem c6_penalty_behavior (s : St) (uid : Nat) (word : String) (ea : Option Rat)
    (hword : 1 ≤ word.length)
    (hea : ∀ x ∈ ea, minAmount ≤ x)
    (hmem : userHasRole s.jar uid Role.member = true)
    (hres : minAmount ≤ resolvePenalty s.jar word ea) :
    penalty s uid word ea = StepResult.ok
      { jar := { balance := s.jar.balance + resolvePenalty s.jar word ea,
                 settings := s.jar.settings,
                 statistics := { totalDeposits :=
                                   s.jar.statistics.totalDeposits + resolvePenalty s.jar word ea,
                                 totalWithdrawals := s.jar.statistics.totalWithdrawals,
                                 transactionCount := s.jar.statistics.transactionCount + 1,
                                 averageDeposit :=
                                   (s.jar.statistics.totalDeposits + resolvePenalty s.jar word ea) /
                                     ((s.jar.statistics.transactionCount + 1 : Nat) : Rat) },
                 members := s.jar.members },
        txns := s.txns ++ [{ id := s.nextId, userId := uid, txType := TxType.penalty,
                             amount := resolvePenalty s.jar word ea,
                             status := TxStatus.completed,
                             balanceAfter := s.jar.balance + resolvePenalty s.jar word ea,
                             metadata := { swearWord := some word } }],
        nextId := s.nextId + 1 } ∧
    (∀ x, ea = some x → resolvePenalty s.jar word ea = x) ∧
    (ea = none →
      ∀ r, s.jar.settings.swearWords.find? (fun w => lowerEq w.word word) = some r →
        resolvePenalty s.jar word ea = r.penalty) ∧
    (ea = none → s.jar.settings.swearWords.find? (fun w => lowerEq w.word word) = none →
      resolvePenalty s.jar word ea = 1) := by
  refine ⟨?_, ?_, ?_, ?_⟩
  · have hw0 : ¬(word.length < 1) := not_lt.mpr hword
    rw [penalty, if_neg hw0]
    have hany : ea.any (fun x => decide (x < minAmount)) = false := by
      cases ea with
      | none => rfl
      | some x =>
        simp only [Option.any_some, decide_eq_false_iff_not, not_lt]
        exact hea x rfl
    rw [show (ea.any fun x => x < minAmount) = false from hany]
    simp only [Bool.false_eq_true, if_false, hmem, Bool.not_true]
    rw [if_neg (not_lt.mpr hres)]
    simp only [Jar.updateBalance, if_true]
  · intro x hx
    subst hx
    rfl
  · intro hnone r hfind
    subst hnone
    simp [resolvePenalty, hfind]
  · intro hnone hfind
    subst hnone
    simp [resolvePenalty, hfind]

theorem c6_penalty_behavior_witness :
    (1 ≤ "DANG".length ∧ userHasRole c6St.jar 1 Role.member = true ∧
      minAmount ≤ resolvePenalty c6St.jar "DANG" none) ∧
    resolvePenalty c6St.jar "DANG" none = 5/2 ∧
    penalty c6St 1 "DANG" none = StepResult.ok c6OkSt := by
  have hle : lowerEq "dang" "DANG" = true := by decide
  have hres : resolvePenalty c6St.jar "DANG" none = 5 / 2 := by
    norm_num [resolvePenalty, c6St, c6Jar, List.find?, hle]
  have hmem : userHasRole c6St.jar 1 Role.member = true := by
    norm_num [userHasRole, c6St, c6Jar, List.find?, roleRank]
  have h := c6_penalty_behavior c6St 1 "DANG" none (by norm_num [String.length])
    (by intro x hx; cases hx) hmem (by rw [hres]; norm_num [minAmount])
  refine ⟨⟨by norm_num [String.length], hmem, by rw [hres]; norm_num [minAmount]⟩, hres, ?_⟩
  rw [h.1]
  simp only [hres]
  norm_num [c6St, c6Jar, c6OkSt]

/-- C10: adding a member with role `member` and no explicit permission
overrides yields `canDeposit = true`, `canViewTransactions = true`,
`canWithdraw = false`, `canInvite = false` — in the Mongo `addMember`
(whose defaults depend on the role), and in the Supabase `addMember` and
`User.addToSwearJar` (which both fall back to one fixed default
object). -/
theorem c10_default_member_permissions (jar : Jar) (uid : Nat)
    (hnew : jar.members.find? (fun m => m.userId == uid) = none) :
    jar.addMember uid Role.member {} = Except.ok
      { jar with members := jar.members ++
          [{ userId := uid, role := Role.member,
             permissions := { canDeposit := true, canWithdraw := false,
                              canInvite := false, canViewTransactions := true } }] } ∧
    supabaseMemberPerms none =
      { canDeposit := true, canWithdraw := false, canInvite := false,
        canViewTransactions := true } ∧
    userAddToSwearJarPerms none =
      { canDeposit := true, canWithdraw := false, canInvite := false,
        canViewTransactions := true } := by
  refine ⟨?_, rfl, rfl⟩
  rw [Jar.addMember, hnew]
  rfl

theorem c10_default_member_permissions_witness :
    c1Jar.members.find? (fun m => m.userId == 2) = none ∧
    c1Jar.addMember 2 Role.member {} = Except.ok
      { c1Jar with members := c1Jar.members ++
          [{ userId := 2, role := Role.member,
             permissions := { canDeposit := true, canWithdraw := false,
                              canInvite := false, canViewTransactions := true } }] } ∧
    supabaseMemberPerms none =
      { canDeposit := true, canWithdraw := false, canInvite := false,
        canViewTransactions := true } ∧
    userAddToSwearJarPerms none =
      { canDeposit := true, canWithdraw := false, canInvite := false,
        canViewTransactions := true } := by
  have hnew : c1Jar.members.find? (fun m => m.userId == 2) = none := rfl
  exact ⟨hnew, c10_default_member_permissions c1Jar 2 hnew⟩

/-- C8 (code evaluation at the failing input): member 2 of `c8Jar` has
`canDeposit = false`, yet the deposit handler — whose permission check is
the User-model role check `hasPermission(swearJarId, 'member')`, not the
capability check — accepts their deposit of 5.00, creates a completed
transaction and increments the balance, instead of rejecting with
AccessDenied. -/
theorem c8_deposit_ignores_canDeposit_flag :
    c8St.jar.hasPermission 2 PermKey.canDeposit = false ∧
    userHasRole c8St.jar 2 Role.member = true ∧
    deposit c8St 2 5 false = StepResult.ok c8OkSt := by
  refine ⟨rfl, rfl, ?_⟩
  unfold deposit
  rw [if_neg (by norm_num [minAmount]), if_neg (by decide),
    if_neg (by norm_num [c8St, c8Jar]), if_neg (by norm_num [c8St, c8Jar])]
  simp only [Jar.updateBalance, Bool.false_eq_true, if_false, if_true]
  norm_num [c8St, c8Jar, c8OkSt]

/-- C5 (code evaluation at the failing schedule): from a stored balance
of 10.00, two concurrent withdrawal requests of 6.00 whose reads both
happen before either write: both requests pass the balance check on their
snapshots, both succeed, and the stored balance ends at 4.00 — the
read-then-write handler does not serialize, so it is false that exactly
one succeeds; two completed withdrawals of 6.00 each now exist against a
4.00 balance. -/
theorem c5_concurrent_withdrawals_both_succeed :
    (wRun 6 { dbBalance := 10 } c5Schedule).req1.succeeded = true ∧
    (wRun 6 { dbBalance := 10 } c5Schedule).req2.succeeded = true ∧
    (wRun 6 { dbBalance := 10 } c5Schedule).dbBalance = 4 := by
  have h : wRun 6 { dbBalance := 10 } c5Schedule =
      { dbBalance := 4, req1 := { snapshot := some 10, finished := true, succeeded := true },
        req2 := { snapshot := some 10, finished := true, succeeded := true } } := by
    norm_num [wRun, wStep, wRead, wWrite, c5Schedule, List.foldl, Option.isSome]
  rw [h]
  exact ⟨rfl, rfl, rfl⟩

/-- C3 counterexample: `Transaction.updateStatus` carries no guard.  On a
transaction already in the terminal status `completed`, a transition to
the same terminal status is accepted (it returns ok, not an InvalidState
rejection), and even a transition to a different terminal status
succeeds, mutating the terminal status in place. -/
theorem c3_updateStatus_not_rejected :
    c3Tx.status = TxStatus.completed ∧
    c3Tx.updateStatus TxStatus.completed = Except.ok c3Tx ∧
    c3Tx.updateStatus TxStatus.failed = Except.ok
      { id := 0, userId := 1, txType := TxType.withdrawal, amount := 5,
        status := TxStatus.failed, balanceAfter := 5 } :=
  ⟨rfl, rfl, rfl⟩

/-- C3 (amended): the route-level entry points do reject: approving or
cancelling a transaction in a terminal status fails with InvalidState and
returns the ledger state unchanged, so no balance delta is applied a
second time.  The model-level `Transaction.updateStatus`, however, does
not reject a terminal-to-terminal write: it succeeds, touching only the
status field — it never applies any balance delta. -/
theorem c3_terminal_no_double_apply (s : St) (uid txId : Nat) (t : Transaction)
    (hfind : s.txns.find? (fun x => x.id == txId) = some t)
    (hterm : t.status = TxStatus.completed ∨ t.status = TxStatus.failed ∨
      t.status = TxStatus.cancelled) :
    approve s uid txId = StepResult.err Err.invalidState s ∧
    cancel s uid txId = StepResult.err Err.invalidState s ∧
    t.updateStatus t.status = Except.ok t := by
  have hnp : t.status ≠ TxStatus.pending := by
    rcases hterm with h | h | h <;> rw [h] <;> intro hc <;> cases hc
  refine ⟨?_, ?_, rfl⟩
  · unfold approve
    simp only [hfind]
    rw [if_pos (by simp [hnp])]
  · unfold cancel
    simp only [hfind]
    rw [if_pos (by simp [hnp])]

theorem c3_terminal_no_double_apply_witness :
    c3St.txns.find? (fun x => x.id == 0) = some c3Tx ∧
    (c3Tx.status = TxStatus.completed ∨ c3Tx.status = TxStatus.failed ∨
      c3Tx.status = TxStatus.cancelled) ∧
    approve c3St 1 0 = StepResult.err Err.invalidState c3St ∧
    cancel c3St 1 0 = StepResult.err Err.invalidState c3St ∧
    c3Tx.updateStatus c3Tx.status = Except.ok c3Tx := by
  have hfind : c3St.txns.find? (fun x => x.id == 0) = some c3Tx := rfl
  have h := c3_terminal_no_double_apply c3St 1 0 c3Tx hfind (Or.inl rfl)
  exact ⟨hfind, Or.inl rfl, h.1, h.2.1, h.2.2⟩

/-- Characterization of a successful approval: on a pending withdrawal,
by a caller holding `canWithdraw`, with sufficient balance, the approve
handler completes the transaction (recording the approver), decrements
the balance and bumps the statistics. -/
theorem approve_pending_withdrawal_ok (s : St) (uid txId : Nat) (t : Transaction)
    (hfind : s.txns.find? (fun x => x.id == txId) = some t)
    (htype : t.txType = TxType.withdrawal) (hstat : t.status = TxStatus.pending)
    (hperm : s.jar.hasPermission uid PermKey.canWithdraw = true)
    (hle : t.amount ≤ s.jar.balance) :
    approve s uid txId = StepResult.ok
      { jar := { balance := s.jar.balance - t.amount, settings := s.jar.settings,
                 statistics := { totalDeposits := s.jar.statistics.totalDeposits,
                                 totalWithdrawals := s.jar.statistics.totalWithdrawals + t.amount,
                                 transactionCount := s.jar.statistics.transactionCount + 1,
                                 averageDeposit := s.jar.statistics.totalDeposits /
                                   ((s.jar.statistics.transactionCount + 1 : Nat) : Rat) },
                 members := s.jar.members },
        txns := setTx s.txns txId { t with status := TxStatus.completed, metadata := { t.metadata with approvedBy := some uid } },
        nextId := s.nextId } := by
  unfold approve
  simp only [hfind]
  rw [if_neg (by simp [htype, hstat]), if_neg (by simp [hperm])]
  simp only [Jar.updateBalance, Bool.false_eq_true, if_false]
  rw [if_neg (not_lt.mpr hle)]

/-- C7 (amended): with `requireApprovalForWithdrawals = true` a
withdrawal by a `canWithdraw` holder is created `pending` with no balance
effect; approving a pending withdrawal — an operation requiring
`canWithdraw` and valid only on a pending withdrawal — completes it,
records the approver identity in its metadata and decrements the balance
by the withdrawal amount.  The source performs the status write and the
balance update as two separate writes, status first, so the pair is
atomic only on success; on a failing balance update the completed status
survives alone (see the counterexample theorem). -/
theorem c7_approval_flow (s sW : St) (uid approver txId : Nat) (a : Rat) (t : Transaction)
    (hmin : minAmount ≤ a)
    (hperm : s.jar.hasPermission uid PermKey.canWithdraw = true)
    (hra : s.jar.settings.requireApprovalForWithdrawals = true)
    (hle0 : a ≤ s.jar.balance)
    (hfind : sW.txns.find? (fun x => x.id == txId) = some t)
    (htype : t.txType = TxType.withdrawal) (hstat : t.status = TxStatus.pending)
    (hperm2 : sW.jar.hasPermission approver PermKey.canWithdraw = true)
    (hle : t.amount ≤ sW.jar.balance) :
    withdrawal s uid a true = StepResult.ok
      { jar := s.jar,
        txns := s.txns ++ [{ id := s.nextId, userId := uid, txType := TxType.withdrawal,
                             amount := a, status := TxStatus.pending,
                             balanceAfter := s.jar.balance - a }],
        nextId := s.nextId + 1 } ∧
    approve sW approver txId = StepResult.ok
      { jar := { balance := sW.jar.balance - t.amount, settings := sW.jar.settings,
                 statistics := { totalDeposits := sW.jar.statistics.totalDeposits,
                                 totalWithdrawals := sW.jar.statistics.totalWithdrawals + t.amount,
                                 transactionCount := sW.jar.statistics.transactionCount + 1,
                                 averageDeposit := sW.jar.statistics.totalDeposits /
                                   ((sW.jar.statistics.transactionCount + 1 : Nat) : Rat) },
                 members := sW.jar.members },
        txns := setTx sW.txns txId { t with status := TxStatus.completed, metadata := { t.metadata with approvedBy := some approver } },
        nextId := sW.nextId } := by
  constructor
  · rw [withdrawal, if_neg (not_lt.mpr hmin), hperm]
    simp only [Bool.not_true, Bool.false_eq_true, if_false]
    rw [if_neg (not_lt.mpr hle0), hra]
    simp only [Bool.not_true, Bool.false_eq_true, if_false, if_true]
  · exact approve_pending_withdrawal_ok sW approver txId t hfind htype hstat hperm2 hle

theorem c7_approval_flow_witness :
    withdrawal c7WSt 1 10 true = StepResult.ok c7PendSt ∧
    c7PendSt.jar.balance = c7WSt.jar.balance ∧
    approve c7PendSt 1 0 = StepResult.ok c7DoneSt ∧
    c7DoneSt.jar.balance = c7PendSt.jar.balance - 10 ∧
    c7DoneSt.txns.find? (fun x => x.id == 0) = some
      { id := 0, userId := 1, txType := TxType.withdrawal, amount := 10,
        status := TxStatus.completed, balanceAfter := 10,
        metadata := { approvedBy := some 1 } } := by
  have h := c7_approval_flow c7WSt c7PendSt 1 1 0 10
    { id := 0, userId := 1, txType := TxType.withdrawal, amount := 10,
      status := TxStatus.pending, balanceAfter := 10 }
    (by norm_num [minAmount]) (by decide) rfl (by norm_num [c7WSt, appJar]) rfl rfl rfl
    (by decide) (by norm_num [c7PendSt])
  refine ⟨?_, rfl, ?_, by norm_num [c7DoneSt, c7PendSt], rfl⟩
  · rw [h.1]
    norm_num [c7WSt, appJar, c7PendSt]
  · rw [h.2]
    norm_num [c7PendSt, c7DoneSt, setTx]

/-- C7 counterexample: an approval whose balance
update fails is not atomic.  From a fresh approval-required jar, deposit
10, create two pending withdrawals of 10, approve the first (balance 0);
approving the second then fails with InsufficientFunds, yet its status
write was already persisted: transaction 2 ends `completed`, with the
balance unchanged — the status change happened without the balance
decrement. -/
theorem c7_approve_failure_keeps_status :
    runOk appSt c7Ops = some c7ReadySt ∧
    c7ReadySt.txns.find? (fun x => x.id == 2) = some c7PendingTx ∧
    c7PendingTx.status = TxStatus.pending ∧
    approve c7ReadySt 1 2 = StepResult.err Err.insufficientFunds c7BrokenSt ∧
    c7BrokenSt.txns.find? (fun x => x.id == 2) = some c7CompletedTx ∧
    c7CompletedTx.status = TxStatus.completed ∧
    c7CompletedTx.metadata.approvedBy = some 1 ∧
    c7BrokenSt.jar.balance = c7ReadySt.jar.balance := by
  refine ⟨?_, rfl, rfl, ?_, rfl, rfl, rfl, rfl⟩
  · norm_num [runOk, step, deposit, withdrawal, approve, Jar.updateBalance, userHasRole,
      Jar.hasPermission, minAmount, appSt, appJar, c7Ops, c7ReadySt, List.find?, roleRank,
      Permissions.get, setTx, (show ((0:Nat) == 1) = false from rfl),
      (show ((1:Nat) == 2) = false from rfl), (show ((0:Nat) == 2) = false from rfl)]
  · norm_num [approve, c7ReadySt, c7BrokenSt, Jar.hasPermission, List.find?,
      Permissions.get, Jar.updateBalance, setTx, (show ((0:Nat) == 2) = false from rfl),
      (show ((1:Nat) == 2) = false from rfl)]

/-- C9 (amended): `isReversible` holds exactly for a completed deposit or
penalty; reversing any other row fails (the thrown "Transaction is not
reversible" error) and changes nothing.  A reversal appends one brand-new
`refund` transaction referencing the original transaction id in its
metadata and copying the original amount — but the row is created in
`pending` status (the `Transaction.create` default) and
`createReverseTransaction` performs no balance update: the inverse
balance effect is NOT applied at creation, and the jar document and the
original row are untouched. -/
theorem c9_reversal_behavior (s : St) (txId : Nat) (reason : Option String) (t : Transaction)
    (hfind : s.txns.find? (fun x => x.id == txId) = some t) :
    (t.isReversible = true ↔
      ((t.txType = TxType.deposit ∨ t.txType = TxType.penalty) ∧
        t.status = TxStatus.completed)) ∧
    (t.isReversible = false → reverse s txId reason = StepResult.err Err.invalidState s) ∧
    (t.isReversible = true → reverse s txId reason = StepResult.ok
      { jar := s.jar,
        txns := s.txns ++ [{ id := s.nextId, userId := t.userId, txType := TxType.refund, amount := t.amount, status := TxStatus.pending, balanceAfter := t.balanceAfter - t.amount, metadata := { t.metadata with originalTransactionId := some t.id, reverseReason := reason } }],
        nextId := s.nextId + 1 }) := by
  refine ⟨?_, ?_, ?_⟩
  · simp [Transaction.isReversible]
  · intro hrev
    unfold reverse
    simp only [hfind]
    rw [if_pos (by simp [hrev])]
  · intro hrev
    have hrev2 := hrev
    simp only [Transaction.isReversible, Bool.and_eq_true, Bool.or_eq_true,
      beq_iff_eq] at hrev2
    obtain ⟨hor, hst⟩ := hrev2
    have hty : (t.txType == TxType.deposit || t.txType == TxType.penalty) = true := by
      rcases hor with h | h <;> simp [h]
    unfold reverse
    simp only [hfind]
    rw [if_neg (by simp [hrev]), if_pos hty]

theorem c9_reversal_behavior_witness :
    c9ReadySt.txns.find? (fun x => x.id == 0) = some c9OrigTx ∧
    c9OrigTx.isReversible = true ∧
    reverse c9ReadySt 0 none = StepResult.ok c9AfterSt := by
  have hfind : c9ReadySt.txns.find? (fun x => x.id == 0) = some c9OrigTx := rfl
  have h := c9_reversal_behavior c9ReadySt 0 none c9OrigTx hfind
  refine ⟨hfind, rfl, ?_⟩
  rw [h.2.2 rfl]
  norm_num [c9ReadySt, c9AfterSt, c9OrigTx]

/-- C9 counterexample: reversing a completed deposit of 25.00 does not
apply the inverse balance effect immediately and atomically as claimed:
the refund row is created `pending` and the jar balance stays 25.00
instead of decreasing to 0 (the original row is indeed untouched). -/
theorem c9_reversal_no_immediate_effect :
    runOk c1St [Op.deposit 1 25 false] = some c9ReadySt ∧
    c9ReadySt.jar.balance = 25 ∧
    reverse c9ReadySt 0 none = StepResult.ok c9AfterSt ∧
    c9AfterSt.jar.balance = 25 ∧
    c9AfterSt.txns.find? (fun x => x.id == 1) = some c9RefundTx ∧
    c9RefundTx.status = TxStatus.pending ∧
    c9RefundTx.metadata.originalTransactionId = some 0 ∧
    c9AfterSt.txns.find? (fun x => x.id == 0) = some c9OrigTx := by
  refine ⟨?_, rfl, ?_, rfl, rfl, rfl, rfl, rfl⟩
  · norm_num [runOk, step, deposit, Jar.updateBalance, userHasRole, minAmount, c1St, c1Jar,
      c9ReadySt, List.find?, roleRank]
  · norm_num [reverse, c9ReadySt, c9AfterSt, Transaction.isReversible, List.find?]

/-- `find?` by id hits the replacement row after a `setTx`. -/
theorem find?_setTx {l : List Transaction} {txId : Nat} {t0 t1 : Transaction}
    (hfind : l.find? (fun x => x.id == txId) = some t0) (hid : t1.id = txId) :
    (setTx l txId t1).find? (fun x => x.id == txId) = some t1 := by
  induction l with
  | nil => simp [List.find?] at hfind
  | cons hd tl ih =>
    by_cases hh : (hd.id == txId) = true
    · simp only [setTx, List.map_cons, if_pos hh, List.find?,
        show (t1.id == txId) = true from beq_iff_eq.mpr hid]
    · rw [Bool.not_eq_true] at hh
      simp only [List.find?, hh] at hfind
      simp only [setTx, List.map_cons, hh, Bool.false_eq_true, if_false, List.find?]
      exact ih hfind

/-- C2 (amended): `balanceAfter` is computed once, at creation, from the
creation-time balance.  For transactions completed at creation — manual
deposit, penalty, withdrawal without approval — it therefore equals the
jar balance immediately after the operation.  A withdrawal created
`pending` records creation-time balance minus amount while the balance is
left unchanged, and the approve handler does not recompute the field, so
after a deferred approval `balanceAfter` can differ from the actual
post-approval balance (see the counterexample theorem). -/
theorem c2_balance_after_amended (s s' : St) (uid txId : Nat) (a : Rat) (word : String)
    (ea : Option Rat) (t t0 : Transaction) :
    (deposit s uid a false = StepResult.ok s' → s'.txns.getLast? = some t →
      t.balanceAfter = s'.jar.balance) ∧
    (penalty s uid word ea = StepResult.ok s' → s'.txns.getLast? = some t →
      t.balanceAfter = s'.jar.balance) ∧
    (withdrawal s uid a true = StepResult.ok s' →
      s.jar.settings.requireApprovalForWithdrawals = false → s'.txns.getLast? = some t →
      t.balanceAfter = s'.jar.balance) ∧
    (withdrawal s uid a true = StepResult.ok s' →
      s.jar.settings.requireApprovalForWithdrawals = true → s'.txns.getLast? = some t →
      t.balanceAfter = s.jar.balance - a ∧ s'.jar.balance = s.jar.balance) ∧
    (approve s uid txId = StepResult.ok s' →
      s.txns.find? (fun x => x.id == txId) = some t0 →
      s'.txns.find? (fun x => x.id == txId) = some
        { t0 with status := TxStatus.completed, metadata := { t0.metadata with approvedBy := some uid } } ∧
      ({ t0 with status := TxStatus.completed, metadata := { t0.metadata with approvedBy := some uid } } : Transaction).balanceAfter = t0.balanceAfter) := by
  refine ⟨?_, ?_, ?_, ?_, ?_⟩
  · intro h hlast
    simp only [deposit, Bool.false_eq_true, if_false, Jar.updateBalance, if_true] at h
    split at h
    · simp at h
    split at h
    · simp at h
    split at h
    · simp at h
    split at h
    · simp at h
    rw [StepResult.ok.injEq] at h
    subst h
    simp only [List.getLast?_concat, Option.some.injEq] at hlast
    subst hlast
    rfl
  · intro h hlast
    simp only [penalty, Jar.updateBalance, if_true] at h
    split at h
    · simp at h
    split at h
    · simp at h
    split at h
    · simp at h
    split at h
    · simp at h
    rw [StepResult.ok.injEq] at h
    subst h
    simp only [List.getLast?_concat, Option.some.injEq] at hlast
    subst hlast
    rfl
  · intro h hra hlast
    simp only [withdrawal] at h
    split at h
    · simp at h
    split at h
    · simp at h
    split at h
    · simp at h
    rename_i hins
    split at h
    · simp at h
    split at h
    · rename_i hc
      rw [hra] at hc
      cases hc
    simp only [Jar.updateBalance, Bool.false_eq_true, if_false, if_neg hins,
      StepResult.ok.injEq] at h
    subst h
    simp only [List.getLast?_concat, Option.some.injEq] at hlast
    subst hlast
    rfl
  · intro h hra hlast
    simp only [withdrawal, hra, eq_self_iff_true, if_true] at h
    split at h
    · simp at h
    split at h
    · simp at h
    split at h
    · simp at h
    split at h
    · simp at h
    rw [StepResult.ok.injEq] at h
    subst h
    simp only [List.getLast?_concat, Option.some.injEq] at hlast
    subst hlast
    exact ⟨rfl, rfl⟩
  · intro h hfind0
    simp only [approve, hfind0] at h
    split at h
    · simp at h
    split at h
    · simp at h
    simp only [Jar.updateBalance, Bool.false_eq_true, if_false] at h
    split at h
    case _ =>
      rename_i j heq
      split at heq
      · simp at heq
      rw [Except.ok.injEq] at heq
      subst heq
      rw [StepResult.ok.injEq] at h
      subst h
      have hbeq0 := List.find?_some hfind0
      have hid0 : t0.id = txId := eq_of_beq hbeq0
      exact ⟨find?_setTx hfind0 hid0, rfl⟩
    case _ => simp at h

theorem c2_balance_after_amended_witness :
    deposit c1St 1 25 false = StepResult.ok c9ReadySt ∧
    c9ReadySt.txns.getLast? = some c9OrigTx ∧
    c9OrigTx.balanceAfter = c9ReadySt.jar.balance ∧
    withdrawal c7WSt 1 10 true = StepResult.ok c7PendSt ∧
    c7PendSt.txns.getLast? = some c7PendTx ∧
    (c7PendTx.balanceAfter = c7WSt.jar.balance - 10 ∧
      c7PendSt.jar.balance = c7WSt.jar.balance) := by
  have hdep : deposit c1St 1 25 false = StepResult.ok c9ReadySt := by
    norm_num [deposit, Jar.updateBalance, userHasRole, minAmount, c1St, c1Jar, c9ReadySt,
      List.find?, roleRank]
  have hlast1 : c9ReadySt.txns.getLast? = some c9OrigTx := rfl
  have h1 := (c2_balance_after_amended c1St c9ReadySt 1 0 25 "" none c9OrigTx
    c9OrigTx).1 hdep hlast1
  have hwd : withdrawal c7WSt 1 10 true = StepResult.ok c7PendSt := by
    norm_num [withdrawal, Jar.hasPermission, Permissions.get, minAmount, c7WSt, appJar,
      c7PendSt, List.find?]
  have hlast2 : c7PendSt.txns.getLast? = some c7PendTx := rfl
  have h4 := (c2_balance_after_amended c7WSt c7PendSt 1 0 10 "" none c7PendTx
    c7PendTx).2.2.2.1 hwd rfl hlast2
  exact ⟨hdep, hlast1, h1, hwd, hlast2, h4⟩

/-- C2 counterexample: a withdrawal of 10.00 created pending at balance
20.00 records `balanceAfter = 10.00`; a deposit of 5.00 intervenes before
its approval, so after the approval actually applies the delta the jar
balance is 15.00 while the completed transaction still carries
`balanceAfter = 10.00` — the stored field does not equal the balance
immediately after the transaction completed. -/
theorem c2_stale_balance_after_deferred_approval :
    runOk appSt c2Ops = some c2FinalSt ∧
    c2FinalSt.txns.find? (fun x => x.id == 1) = some c2StaleTx ∧
    c2StaleTx.status = TxStatus.completed ∧
    c2StaleTx.balanceAfter = 10 ∧
    c2FinalSt.jar.balance = 15 ∧
    c2StaleTx.balanceAfter ≠ c2FinalSt.jar.balance := by
  refine ⟨?_, rfl, rfl, rfl, rfl, by norm_num [c2StaleTx, c2FinalSt]⟩
  norm_num [runOk, step, deposit, withdrawal, approve, Jar.updateBalance, userHasRole,
    Jar.hasPermission, minAmount, appSt, appJar, c2Ops, c2FinalSt, List.find?, roleRank,
    Permissions.get, setTx, (show ((0:Nat) == 1) = false from rfl),
    (show ((1:Nat) == 2) = false from rfl), (show ((0:Nat) == 2) = false from rfl)]

end SwearJarLedger
